import Mathlib

/-!
Shallow embedding of `src/exam1.py` (class `FitnessTracker`): a personal
fitness-logging utility storing activity records and per-metric health
readings, with a weekly-resample summary.

Modelling conventions:
* Numbers entered by the user (`duration_min`, `distance_km`, metric values)
  are Python floats holding small decimals; they are modelled as `ℚ`.
* Calendar dates are modelled at day granularity as `Nat` day indices, with
  the epoch placed on a Sunday, so a day `d` is a Sunday iff `d % 7 = 0`.
* The Python code stores `Date` first as the string
  `datetime.date.today().strftime("%Y-%m-%d")` and later mutates the column
  with `pd.to_datetime`, replacing each string by a `Timestamp` of the same
  calendar day.  `DateVal` records which of the two representations is
  stored, together with the denoted day.
* `self.health_metrics` is a Python dict from metric name to a DataFrame of
  readings; it is modelled as a function `String → Option (List HealthReading)`.
* `print` calls are side channels: the weekly summary's printed all-time
  mean is exposed as the second component of the successful result.
-/

/-- A stored date value: the day it denotes, plus whether it is currently held
as the `"%Y-%m-%d"` string written by `log_activity` or as the parsed
`pd.Timestamp` produced by `pd.to_datetime` in `calculate_weekly_summary`. -/
inductive DateVal where
  | str (day : Nat)
  | ts (day : Nat)
deriving DecidableEq

/-- The calendar day denoted by a stored date value. -/
def DateVal.day : DateVal → Nat
  | .str d => d
  | .ts d => d

/-- Embedding of `pd.to_datetime` on one stored date: parses the string form
to the timestamp form of the same day (idempotent on timestamps). -/
def to_datetime (v : DateVal) : DateVal := .ts v.day

/-- One row of `self.activities`, the dict built in `log_activity`
(`Date`, `ActivityType`, `DurationMin`, `CaloriesBurned`, `DistanceKM`). -/
structure Activity where
  date : DateVal
  activityType : String
  durationMin : ℚ
  caloriesBurned : ℚ
  distanceKm : ℚ
deriving DecidableEq

/-- One row of a health-metric DataFrame (`Date`, `Value`) built in
`log_health_metric`. -/
structure HealthReading where
  date : Nat
  value : ℚ
deriving DecidableEq

/-- One row of the DataFrame returned by
`self.activities.set_index('Date').resample('W').agg(...)`: the bin's
right label (the Sunday ending the week) and the three column sums. -/
structure WeekBucket where
  weekEnd : Nat
  totalDurationMin : ℚ
  totalCaloriesBurned : ℚ
  totalDistanceKm : ℚ
deriving DecidableEq

/-- State of a `FitnessTracker` object: the activities DataFrame (row order
is insertion order) and the `health_metrics` dict. -/
structure FitnessTracker where
  activities : List Activity
  health_metrics : String → Option (List HealthReading)

/-- Embedding of `FitnessTracker.__init__`: empty activities table, empty
health-metrics dict. -/
def FitnessTracker.init : FitnessTracker :=
  { activities := [], health_metrics := fun _ => none }

/-- Embedding of `FitnessTracker.log_activity`.  `today` stands for
`datetime.date.today()`; the stored date is its `"%Y-%m-%d"` string.
The calorie computation is the `if/elif/else` chain of the source. -/
def log_activity (s : FitnessTracker) (activity_type : String)
    (duration_min : ℚ) (distance_km : ℚ) (today : Nat) : FitnessTracker :=
  let calories : ℚ :=
    if activity_type = "Running" then duration_min * 10
    else if activity_type = "Cycling" then duration_min * 7
    else duration_min * 5
  { s with
    activities := s.activities ++
      [{ date := .str today, activityType := activity_type,
         durationMin := duration_min, caloriesBurned := calories,
         distanceKm := distance_km }] }

/-- Embedding of `FitnessTracker.log_health_metric`: if the dict has no entry
for `metric_name` an empty DataFrame is created, then one `{Date, Value}` row
is appended to that metric's DataFrame. -/
def log_health_metric (s : FitnessTracker) (metric_name : String) (value : ℚ)
    (today : Nat) : FitnessTracker :=
  { s with
    health_metrics := fun m =>
      if m = metric_name then
        some (((s.health_metrics metric_name).getD []) ++
          [{ date := today, value := value }])
      else s.health_metrics m }

/-- The right label of the weekly bin containing day `d` under pandas
`resample('W')` (= `'W-SUN'`, right-closed, right-labeled): the first Sunday
on or after `d`. -/
def sundayOnOrAfter (d : Nat) : Nat := d + (7 - d % 7) % 7

/-- Conversion of one activity row by the in-place column assignment
`self.activities['Date'] = pd.to_datetime(self.activities['Date'])`. -/
def toTsAct (a : Activity) : Activity := { a with date := to_datetime a.date }

/-- The aggregation of one weekly bin with right label `L`: the sums of the
three numeric columns over exactly the rows falling in that bin. -/
def bucketFor (acts : List Activity) (L : Nat) : WeekBucket :=
  let wk := acts.filter (fun a => sundayOnOrAfter a.date.day == L)
  { weekEnd := L,
    totalDurationMin := (wk.map (·.durationMin)).sum,
    totalCaloriesBurned := (wk.map (·.caloriesBurned)).sum,
    totalDistanceKm := (wk.map (·.distanceKm)).sum }

/-- Embedding of `resample('W').agg({'DurationMin':'sum', 'CaloriesBurned':
'sum', 'DistanceKM':'sum'})` on a non-empty table: one row for every weekly
bin from the bin of the earliest date through the bin of the latest date
(bins with no rows get zero sums), labels ascending in steps of 7 days. -/
def weeklyBuckets (acts : List Activity) : List WeekBucket :=
  match acts.map (fun a => a.date.day) with
  | [] => []
  | d :: ds =>
    let lo := sundayOnOrAfter (ds.foldl min d)
    let hi := sundayOnOrAfter (ds.foldl max d)
    (List.range' lo ((hi - lo) / 7 + 1) 7).map (bucketFor acts)

/-- Embedding of `FitnessTracker.calculate_weekly_summary`.  It first mutates
the stored table (`self.activities['Date'] = pd.to_datetime(...)`), hence the
returned post-state.  On a non-empty table the result is the resampled weekly
summary together with the printed all-time mean of `DurationMin`
(`np.mean(self.activities['DurationMin'].to_numpy())`).  On an empty table
the pipeline raises (`np.mean` of an empty object-dtype column divides by
zero after resampling an empty frame), modelled as `Except.error`. -/
def calculate_weekly_summary (s : FitnessTracker) :
    FitnessTracker × Except String (List WeekBucket × ℚ) :=
  let acts := s.activities.map toTsAct
  ({ s with activities := acts },
   if acts.isEmpty then .error "ZeroDivisionError"
   else .ok (weeklyBuckets acts,
     (acts.map (·.durationMin)).sum / (acts.length : ℚ)))

/-- Embedding of `FitnessTracker.get_activity_data`: returns the activities
table. -/
def get_activity_data (s : FitnessTracker) : List Activity := s.activities

/-- Embedding of `FitnessTracker.get_health_data`:
`self.health_metrics.get(metric_name, pd.DataFrame())`. -/
def get_health_data (s : FitnessTracker) (metric_name : String) :
    List HealthReading :=
  (s.health_metrics metric_name).getD []

/-- One user-driven mutating call on the tracker (the reads are pure). -/
inductive Op where
  | logActivityOp (t : String) (dur : ℚ) (dist : ℚ) (today : Nat)
  | logHealthMetricOp (m : String) (v : ℚ) (today : Nat)
  | weeklySummaryOp
deriving DecidableEq

/-- Execute one call against a tracker state. -/
def step (s : FitnessTracker) : Op → FitnessTracker
  | .logActivityOp t dur dist d => log_activity s t dur dist d
  | .logHealthMetricOp m v d => log_health_metric s m v d
  | .weeklySummaryOp => (calculate_weekly_summary s).1

/-- State reached from a fresh tracker after a sequence of calls. -/
def run (ops : List Op) : FitnessTracker := ops.foldl step FitnessTracker.init

/-- Whether a call passes the metric name `m` to `log_health_metric`. -/
def Op.touchesMetric (m : String) : Op → Bool
  | .logHealthMetricOp m' _ _ => m' == m
  | _ => false

/-! Helper lemmas about the embedding. -/

@[simp] lemma toTsAct_activityType (a : Activity) :
    (toTsAct a).activityType = a.activityType := rfl

@[simp] lemma toTsAct_durationMin (a : Activity) :
    (toTsAct a).durationMin = a.durationMin := rfl

@[simp] lemma toTsAct_caloriesBurned (a : Activity) :
    (toTsAct a).caloriesBurned = a.caloriesBurned := rfl

@[simp] lemma toTsAct_distanceKm (a : Activity) :
    (toTsAct a).distanceKm = a.distanceKm := rfl

@[simp] lemma toTsAct_day (a : Activity) :
    (toTsAct a).date.day = a.date.day := rfl

/-- Mapping a field that `toTsAct` leaves alone commutes away the conversion. -/
lemma map_comp_toTsAct {β : Type} (f : Activity → β)
    (hf : ∀ a, f (toTsAct a) = f a) (l : List Activity) :
    (l.map toTsAct).map f = l.map f := by
  induction l with
  | nil => rfl
  | cons a l ih => simp [hf, ih]

/-- The first projection of `calculate_weekly_summary` is the state with the
`Date` column converted in place. -/
lemma calculate_weekly_summary_fst (s : FitnessTracker) :
    (calculate_weekly_summary s).1 =
      { s with activities := s.activities.map toTsAct } := rfl

/-! Claim theorems. -/

/-- C1: the caloriesBurned value stored by `log_activity` equals durationMin
times the rate selected by exact string match on activityType (10 for
"Running", 7 for "Cycling", 5 otherwise); in particular logging
("Running", 30, 4.5) stores 300, ("Cycling", 60, 15) stores 420, and
("Yoga", 20, 0) stores 100. -/
theorem log_activity_calories_rate :
    (∀ (s : FitnessTracker) (t : String) (dur dist : ℚ) (d : Nat),
      ((log_activity s t dur dist d).activities.map (·.caloriesBurned)).getLast? =
        some (dur * (if t = "Running" then 10 else if t = "Cycling" then 7 else 5))) ∧
    (log_activity FitnessTracker.init "Running" 30 4.5 0).activities.map
      (·.caloriesBurned) = [300] ∧
    (log_activity FitnessTracker.init "Cycling" 60 15 0).activities.map
      (·.caloriesBurned) = [420] ∧
    (log_activity FitnessTracker.init "Yoga" 20 0 0).activities.map
      (·.caloriesBurned) = [100] := by
  refine ⟨fun s t dur dist d => ?_, ?_, ?_, ?_⟩
  · by_cases h1 : t = "Running" <;> by_cases h2 : t = "Cycling" <;>
      simp [log_activity, h1, h2, mul_comm]
  all_goals norm_num [log_activity, FitnessTracker.init]
  all_goals decide

/-- C3: on an empty activity collection `calculate_weekly_summary` does not
return an empty summary with the mean skipped; the pipeline raises
(`np.mean` of the empty `DurationMin` column divides by zero), modelled as
an `Except.error` result. -/
theorem weekly_summary_empty_raises :
    FitnessTracker.init.activities = [] ∧
    (calculate_weekly_summary FitnessTracker.init).2 =
      .error "ZeroDivisionError" := ⟨rfl, rfl⟩

/-- C5: `log_activity` followed by `get_activity_data` yields the previous
sequence extended by exactly one record whose fields are the arguments, the
derived calories, and today's date; earlier records are untouched. -/
theorem log_activity_appends (s : FitnessTracker) (t : String) (dur dist : ℚ)
    (d : Nat) :
    get_activity_data (log_activity s t dur dist d) =
      get_activity_data s ++
        [{ date := .str d, activityType := t, durationMin := dur,
           caloriesBurned :=
             if t = "Running" then dur * 10
             else if t = "Cycling" then dur * 7 else dur * 5,
           distanceKm := dist }] := rfl

/-- C9: `log_health_metric` leaves the activity collection unchanged, and
`log_activity` leaves every health-metric sequence unchanged. -/
theorem logging_ops_independent (s : FitnessTracker) (t : String)
    (dur dist : ℚ) (m : String) (v : ℚ) (d d' : Nat) :
    (log_health_metric s m v d).activities = s.activities ∧
    (∀ m', (log_activity s t dur dist d').health_metrics m' =
      s.health_metrics m') :=
  ⟨rfl, fun _ => rfl⟩

/-- C10: `log_health_metric` immediately followed by `get_health_data` on the
same metric returns a non-empty sequence ending in the just-logged reading
(today's date, given value). -/
theorem log_health_metric_then_get (s : FitnessTracker) (m : String) (v : ℚ)
    (d : Nat) :
    get_health_data (log_health_metric s m v d) m ≠ [] ∧
    (get_health_data (log_health_metric s m v d) m).getLast? =
      some { date := d, value := v } := by
  simp [get_health_data, log_health_metric]

/-- C6: `log_health_metric` on a fresh metric name creates a one-element
sequence; on an existing metric it appends one reading at the end; sequences
of every other metric name are untouched. -/
theorem log_health_metric_append (s : FitnessTracker) (m : String) (v : ℚ)
    (d : Nat) :
    (s.health_metrics m = none →
      (log_health_metric s m v d).health_metrics m =
        some [{ date := d, value := v }]) ∧
    (∀ l, s.health_metrics m = some l →
      (log_health_metric s m v d).health_metrics m =
        some (l ++ [{ date := d, value := v }])) ∧
    (∀ m', m' ≠ m →
      (log_health_metric s m v d).health_metrics m' = s.health_metrics m') := by
  refine ⟨fun h => ?_, fun l h => ?_, fun m' h => ?_⟩ <;>
    simp [log_health_metric, h]

/-- Witness for C6 at a fresh tracker: logging "Weight_KG" twice builds the
two-element sequence in order, and the untouched "Steps" metric stays
absent. -/
theorem log_health_metric_append_witness :
    FitnessTracker.init.health_metrics "Weight_KG" = none ∧
    (log_health_metric FitnessTracker.init "Weight_KG" 75.2 3).health_metrics
      "Weight_KG" = some [{ date := 3, value := 75.2 }] ∧
    (log_health_metric (log_health_metric FitnessTracker.init "Weight_KG"
      75.2 3) "Weight_KG" 74.8 4).health_metrics "Weight_KG" =
      some [{ date := 3, value := 75.2 }, { date := 4, value := 74.8 }] ∧
    (log_health_metric FitnessTracker.init "Weight_KG" 75.2 3).health_metrics
      "Steps" = FitnessTracker.init.health_metrics "Steps" := by
  have h1 := (log_health_metric_append FitnessTracker.init "Weight_KG"
    75.2 3).1 rfl
  refine ⟨rfl, h1, ?_, ?_⟩
  · simpa using (log_health_metric_append (log_health_metric
      FitnessTracker.init "Weight_KG" 75.2 3) "Weight_KG" 74.8 4).2.1
      [{ date := 3, value := 75.2 }] h1
  · exact (log_health_metric_append FitnessTracker.init "Weight_KG"
      75.2 3).2.2 "Steps" (by decide)

/-- A run of calls none of which logs the metric `m` leaves `m`'s entry in
the health-metrics dict untouched. -/
lemma foldl_step_health (ops : List Op) (s : FitnessTracker) (m : String)
    (h : ∀ op ∈ ops, Op.touchesMetric m op = false) :
    (ops.foldl step s).health_metrics m = s.health_metrics m := by
  induction ops generalizing s with
  | nil => rfl
  | cons op rest ih =>
    rw [List.foldl_cons,
      ih _ (fun o ho => h o (List.mem_cons_of_mem _ ho))]
    have hop := h op (List.mem_cons_self _ _)
    cases op with
    | logActivityOp t dur dist d => rfl
    | weeklySummaryOp => rfl
    | logHealthMetricOp m' v d =>
      simp only [Op.touchesMetric, beq_eq_false_iff_ne, ne_eq] at hop
      simp [step, log_health_metric, Ne.symm hop]

/-- C7: `get_health_data` on a metric name that was never passed to
`log_health_metric` in the whole run returns the empty sequence (no error). -/
theorem get_health_data_unlogged (ops : List Op) (m : String)
    (h : ∀ op ∈ ops, Op.touchesMetric m op = false) :
    get_health_data (run ops) m = [] := by
  unfold run get_health_data
  rw [foldl_step_health ops _ m h]
  rfl

/-- Witness for C7: a run that logs an activity, logs "Weight_KG" and takes
a weekly summary never touches "Steps", and reading "Steps" yields `[]`. -/
theorem get_health_data_unlogged_witness :
    (∀ op ∈ [Op.logActivityOp "Running" 30 4.5 0,
      Op.logHealthMetricOp "Weight_KG" 75.2 0, Op.weeklySummaryOp],
      Op.touchesMetric "Steps" op = false) ∧
    get_health_data (run [Op.logActivityOp "Running" 30 4.5 0,
      Op.logHealthMetricOp "Weight_KG" 75.2 0, Op.weeklySummaryOp])
      "Steps" = [] := by
  refine ⟨?_, get_health_data_unlogged _ _ ?_⟩ <;>
    · intro op hop
      fin_cases hop <;> rfl

/-- C8: on a non-empty collection, `calculate_weekly_summary` reports as a
side value (it is printed, not a row of the returned summary) the number `m`
with `m * count = total duration`, i.e. the arithmetic mean of `DurationMin`
over all activity records regardless of week. -/
theorem weekly_summary_mean (s : FitnessTracker) (h : s.activities ≠ []) :
    (calculate_weekly_summary s).2.map
      (fun p => p.2 * (s.activities.length : ℚ)) =
      .ok ((s.activities.map (·.durationMin)).sum) := by
  cases hs : s.activities with
  | nil => exact absurd hs h
  | cons a as =>
    have hlen : ((a :: as).length : ℚ) ≠ 0 := by
      simp [List.length_cons]
      positivity
    simp only [calculate_weekly_summary, hs, Except.map, List.map_cons,
      List.isEmpty_cons, Bool.false_eq_true, if_false]
    rw [← List.map_cons toTsAct a as,
      map_comp_toTsAct (·.durationMin) (fun _ => rfl), List.length_map]
    rw [div_mul_cancel₀ _ hlen]
    rfl

/-- Witness for C8 at a one-record tracker: the reported mean times the
record count equals the total duration. -/
theorem weekly_summary_mean_witness :
    (log_activity FitnessTracker.init "Running" 30 4.5 0).activities ≠ [] ∧
    (calculate_weekly_summary (log_activity FitnessTracker.init "Running"
      30 4.5 0)).2.map (fun p => p.2 *
        ((log_activity FitnessTracker.init "Running" 30 4.5 0).activities.length : ℚ)) =
      .ok (((log_activity FitnessTracker.init "Running" 30 4.5 0).activities.map
        (·.durationMin)).sum) :=
  ⟨by simp [log_activity, FitnessTracker.init],
   weekly_summary_mean _ (by simp [log_activity, FitnessTracker.init])⟩

/-- C4 counterexample: `calculate_weekly_summary` mutates the stored table.
After logging one activity on day 5 (stored date: the string "…"), running
the summary leaves the activities list different from before the call — the
`Date` column has been converted in place to timestamps. -/
theorem weekly_summary_mutates_dates :
    (calculate_weekly_summary (log_activity FitnessTracker.init "Running"
      30 4.5 5)).1.activities ≠
      (log_activity FitnessTracker.init "Running" 30 4.5 5).activities := by
  simp [calculate_weekly_summary, log_activity, FitnessTracker.init, toTsAct,
    to_datetime, DateVal.day]

/-- C4 amended: `calculate_weekly_summary` preserves the number and order of
activity records, their `activityType`, `durationMin`, `caloriesBurned` and
`distanceKm` fields and the calendar day each record's date denotes, and
leaves the health-metrics dict untouched; the one state change is that each
record's stored date switches from its string form to the parsed timestamp
of the same day. -/
theorem weekly_summary_frame (s : FitnessTracker) :
    (calculate_weekly_summary s).1.activities.map (·.activityType) =
      s.activities.map (·.activityType) ∧
    (calculate_weekly_summary s).1.activities.map (·.durationMin) =
      s.activities.map (·.durationMin) ∧
    (calculate_weekly_summary s).1.activities.map (·.caloriesBurned) =
      s.activities.map (·.caloriesBurned) ∧
    (calculate_weekly_summary s).1.activities.map (·.distanceKm) =
      s.activities.map (·.distanceKm) ∧
    (calculate_weekly_summary s).1.activities.map (fun a => a.date.day) =
      s.activities.map (fun a => a.date.day) ∧
    (calculate_weekly_summary s).1.activities =
      s.activities.map (fun a => { a with date := .ts a.date.day }) ∧
    (calculate_weekly_summary s).1.health_metrics = s.health_metrics := by
  exact ⟨map_comp_toTsAct (·.activityType) (fun _ => rfl) s.activities,
    map_comp_toTsAct (·.durationMin) (fun _ => rfl) s.activities,
    map_comp_toTsAct (·.caloriesBurned) (fun _ => rfl) s.activities,
    map_comp_toTsAct (·.distanceKm) (fun _ => rfl) s.activities,
    map_comp_toTsAct (fun a => a.date.day) (fun _ => rfl) s.activities,
    rfl, rfl⟩

/-! Support lemmas for the weekly-resample analysis. -/

lemma sundayOnOrAfter_mod (d : Nat) : sundayOnOrAfter d % 7 = 0 := by
  unfold sundayOnOrAfter; omega

lemma le_sundayOnOrAfter (d : Nat) : d ≤ sundayOnOrAfter d := by
  unfold sundayOnOrAfter; omega

lemma sundayOnOrAfter_mono {a b : Nat} (h : a ≤ b) :
    sundayOnOrAfter a ≤ sundayOnOrAfter b := by
  unfold sundayOnOrAfter; omega

lemma foldl_min_le (ds : List Nat) (d : Nat) :
    ∀ x ∈ d :: ds, List.foldl min d ds ≤ x := by
  induction ds generalizing d with
  | nil =>
    intro x hx
    rw [List.mem_singleton] at hx
    subst hx
    exact le_refl _
  | cons e tl ih =>
    intro x hx
    have hbase := ih (min d e) (min d e) (List.mem_cons_self _ _)
    rcases List.mem_cons.mp hx with rfl | hx'
    · exact le_trans hbase (min_le_left _ _)
    rcases List.mem_cons.mp hx' with rfl | hx''
    · exact le_trans hbase (min_le_right _ _)
    · exact ih (min d e) x (List.mem_cons_of_mem _ hx'')

lemma le_foldl_max (ds : List Nat) (d : Nat) :
    ∀ x ∈ d :: ds, x ≤ List.foldl max d ds := by
  induction ds generalizing d with
  | nil =>
    intro x hx
    rw [List.mem_singleton] at hx
    subst hx
    exact le_refl _
  | cons e tl ih =>
    intro x hx
    have hbase := ih (max d e) (max d e) (List.mem_cons_self _ _)
    rcases List.mem_cons.mp hx with rfl | hx'
    · exact le_trans (le_max_left _ _) hbase
    rcases List.mem_cons.mp hx' with rfl | hx''
    · exact le_trans (le_max_right _ _) hbase
    · exact ih (max d e) x (List.mem_cons_of_mem _ hx'')

lemma foldl_min_mem (ds : List Nat) (d : Nat) :
    List.foldl min d ds ∈ d :: ds := by
  induction ds generalizing d with
  | nil => exact List.mem_cons_self _ _
  | cons e tl ih =>
    rw [List.foldl_cons]
    rcases List.mem_cons.mp (ih (min d e)) with heq | hmem
    · rw [heq]
      rcases le_total d e with hde | hed
      · rw [min_eq_left hde]
        exact List.mem_cons_self _ _
      · rw [min_eq_right hed]
        exact List.mem_cons_of_mem _ (List.mem_cons_self _ _)
    · exact List.mem_cons_of_mem _ (List.mem_cons_of_mem _ hmem)

lemma foldl_max_mem (ds : List Nat) (d : Nat) :
    List.foldl max d ds ∈ d :: ds := by
  induction ds generalizing d with
  | nil => exact List.mem_cons_self _ _
  | cons e tl ih =>
    rw [List.foldl_cons]
    rcases List.mem_cons.mp (ih (max d e)) with heq | hmem
    · rw [heq]
      rcases le_total d e with hde | hed
      · rw [max_eq_right hde]
        exact List.mem_cons_of_mem _ (List.mem_cons_self _ _)
      · rw [max_eq_left hed]
        exact List.mem_cons_self _ _
    · exact List.mem_cons_of_mem _ (List.mem_cons_of_mem _ hmem)

lemma chain'_range'_step (n lo : Nat) :
    List.Chain' (fun x y => y = x + 7) (List.range' lo n 7) := by
  induction n generalizing lo with
  | zero => simp
  | succ m ih =>
    rw [List.range'_succ]
    refine List.chain'_cons'.mpr ⟨?_, ih (lo + 7)⟩
    intro y hy
    cases m with
    | zero => simp [List.range'] at hy
    | succ k =>
      rw [List.range'_succ] at hy
      simp only [List.head?_cons, Option.mem_def, Option.some.injEq] at hy
      omega

/-- Equation lemma for `weeklyBuckets` on a non-empty list. -/
lemma weeklyBuckets_cons (a : Activity) (as : List Activity) :
    weeklyBuckets (a :: as) =
      (List.range'
        (sundayOnOrAfter ((as.map (fun x => x.date.day)).foldl min a.date.day))
        ((sundayOnOrAfter ((as.map (fun x => x.date.day)).foldl max a.date.day) -
          sundayOnOrAfter ((as.map (fun x => x.date.day)).foldl min a.date.day)) / 7
            + 1) 7).map
        (bucketFor (a :: as)) := rfl

/-- Converting the `Date` column commutes with a weekly-bin filter. -/
lemma filter_week_map (acts : List Activity) (L : Nat) :
    (acts.map toTsAct).filter (fun x => sundayOnOrAfter x.date.day == L) =
      (acts.filter (fun x => sundayOnOrAfter x.date.day == L)).map toTsAct := by
  induction acts with
  | nil => rfl
  | cons a l ih =>
    simp only [List.map_cons, List.filter_cons, toTsAct_day]
    rcases Bool.eq_false_or_eq_true (sundayOnOrAfter a.date.day == L) with
      hba | hba <;> simp [hba, ih]

/-- Converting the `Date` column does not change any weekly bin's sums. -/
lemma bucketFor_map (acts : List Activity) (L : Nat) :
    bucketFor (acts.map toTsAct) L = bucketFor acts L := by
  simp only [bucketFor]
  rw [filter_week_map,
    map_comp_toTsAct (·.durationMin) (fun _ => rfl),
    map_comp_toTsAct (·.caloriesBurned) (fun _ => rfl),
    map_comp_toTsAct (·.distanceKm) (fun _ => rfl)]

/-- Converting the `Date` column does not change the weekly summary. -/
lemma weeklyBuckets_map (acts : List Activity) :
    weeklyBuckets (acts.map toTsAct) = weeklyBuckets acts := by
  cases acts with
  | nil => rfl
  | cons a as =>
    show weeklyBuckets (toTsAct a :: as.map toTsAct) = weeklyBuckets (a :: as)
    have hb : bucketFor (toTsAct a :: as.map toTsAct) = bucketFor (a :: as) := by
      funext L
      rw [← List.map_cons toTsAct a as]
      exact bucketFor_map (a :: as) L
    rw [weeklyBuckets_cons, weeklyBuckets_cons, hb,
      map_comp_toTsAct (fun x => x.date.day) (fun _ => rfl) as]
    simp only [toTsAct_day]

/-- On a non-empty collection the summary call succeeds, returning the weekly
bins of the (order-preserved) records and the all-time mean duration. -/
lemma calculate_weekly_summary_snd (s : FitnessTracker)
    (h : s.activities ≠ []) :
    (calculate_weekly_summary s).2 =
      .ok (weeklyBuckets s.activities,
        (s.activities.map (·.durationMin)).sum / (s.activities.length : ℚ)) := by
  cases hs : s.activities with
  | nil => exact absurd hs h
  | cons a as =>
    simp only [calculate_weekly_summary, hs, List.map_cons, List.isEmpty_cons,
      Bool.false_eq_true, if_false]
    rw [← List.map_cons toTsAct a as, weeklyBuckets_map,
      map_comp_toTsAct (·.durationMin) (fun _ => rfl), List.length_map]
    rfl

/-- C2 counterexample: with records on day 1 and day 15 (weeks ending on
days 7 and 21), the summary returned by `calculate_weekly_summary` has THREE
buckets — labels 7, 14 and 21 — although the records occupy only TWO distinct
weeks: the resample emits the empty intermediate week 14 as well, so the
summary does not have one bucket per distinct week of the records. -/
theorem weekly_summary_bucket_count_cex :
    (calculate_weekly_summary (log_activity (log_activity FitnessTracker.init
      "Running" 30 0 1) "Running" 45 0 15)).2.map
        (fun p => p.1.map (·.weekEnd)) = .ok [7, 14, 21] ∧
    ((log_activity (log_activity FitnessTracker.init "Running" 30 0 1)
      "Running" 45 0 15).activities.map
        (fun x => sundayOnOrAfter x.date.day)).dedup = [7, 21] := by
  constructor
  · simp [calculate_weekly_summary, log_activity, FitnessTracker.init,
      weeklyBuckets, toTsAct, to_datetime, DateVal.day, sundayOnOrAfter,
      bucketFor, List.range', Except.map]
  · simp [log_activity, FitnessTracker.init, sundayOnOrAfter, DateVal.day]

/-- C2 amended: on a non-empty collection the summary returns one bucket for
every calendar week from the week of the earliest record through the week of
the latest record — Sunday-ending labels, consecutive (hence chronological),
weeks without records included with zero sums — and each bucket's totals are
the plain sums of the three fields over exactly the records whose date falls
in that week; every record's week has its bucket, and every bucket lies
between the weeks of two records. -/
theorem weekly_summary_bins (s : FitnessTracker) (h : s.activities ≠ []) :
    (calculate_weekly_summary s).2.map Prod.fst =
      .ok (weeklyBuckets s.activities) ∧
    (∀ b ∈ weeklyBuckets s.activities,
      b.weekEnd % 7 = 0 ∧
      b.totalDurationMin = ((s.activities.filter
        (fun x => sundayOnOrAfter x.date.day == b.weekEnd)).map
          (·.durationMin)).sum ∧
      b.totalCaloriesBurned = ((s.activities.filter
        (fun x => sundayOnOrAfter x.date.day == b.weekEnd)).map
          (·.caloriesBurned)).sum ∧
      b.totalDistanceKm = ((s.activities.filter
        (fun x => sundayOnOrAfter x.date.day == b.weekEnd)).map
          (·.distanceKm)).sum ∧
      (∃ x ∈ s.activities, sundayOnOrAfter x.date.day ≤ b.weekEnd) ∧
      (∃ x ∈ s.activities, b.weekEnd ≤ sundayOnOrAfter x.date.day)) ∧
    List.Chain' (fun b c => c.weekEnd = b.weekEnd + 7)
      (weeklyBuckets s.activities) ∧
    (∀ x ∈ s.activities, ∃ b ∈ weeklyBuckets s.activities,
      b.weekEnd = sundayOnOrAfter x.date.day) := by
  obtain ⟨a, as, hs⟩ := List.exists_cons_of_ne_nil h
  have hD : (a :: as).map (fun x => x.date.day) =
      a.date.day :: as.map (fun x => x.date.day) := rfl
  have hlo := sundayOnOrAfter_mod
    ((as.map (fun x => x.date.day)).foldl min a.date.day)
  have hhi := sundayOnOrAfter_mod
    ((as.map (fun x => x.date.day)).foldl max a.date.day)
  have hmnmx : (as.map (fun x => x.date.day)).foldl min a.date.day ≤
      (as.map (fun x => x.date.day)).foldl max a.date.day :=
    le_trans
      (foldl_min_le _ _ a.date.day (List.mem_cons_self _ _))
      (le_foldl_max _ _ a.date.day (List.mem_cons_self _ _))
  have hlohi := sundayOnOrAfter_mono hmnmx
  refine ⟨?_, ?_, ?_, ?_⟩
  · rw [calculate_weekly_summary_snd s h]
    rfl
  · rw [hs, weeklyBuckets_cons]
    intro b hb
    obtain ⟨L, hL, rfl⟩ := List.mem_map.mp hb
    obtain ⟨i, hin, hLi⟩ := List.mem_range'.mp hL
    have hminmem : (as.map (fun x => x.date.day)).foldl min a.date.day ∈
        (a :: as).map (fun x => x.date.day) := foldl_min_mem _ _
    have hmaxmem : (as.map (fun x => x.date.day)).foldl max a.date.day ∈
        (a :: as).map (fun x => x.date.day) := foldl_max_mem _ _
    obtain ⟨xmin, hxmin_mem, hxmin⟩ := List.mem_map.mp hminmem
    obtain ⟨xmax, hxmax_mem, hxmax⟩ := List.mem_map.mp hmaxmem
    refine ⟨?_, rfl, rfl, rfl, ⟨xmin, hxmin_mem, ?_⟩,
      ⟨xmax, hxmax_mem, ?_⟩⟩
    · show L % 7 = 0
      omega
    · show sundayOnOrAfter xmin.date.day ≤ L
      rw [show xmin.date.day =
        (as.map (fun x => x.date.day)).foldl min a.date.day from hxmin]
      omega
    · show L ≤ sundayOnOrAfter xmax.date.day
      rw [show xmax.date.day =
        (as.map (fun x => x.date.day)).foldl max a.date.day from hxmax]
      omega
  · rw [hs, weeklyBuckets_cons]
    exact List.chain'_map_of_chain' (bucketFor (a :: as))
      (fun p q hpq => hpq) (chain'_range'_step _ _)
  · rw [hs, weeklyBuckets_cons]
    intro x hx
    have hxday : x.date.day ∈
        a.date.day :: as.map (fun y => y.date.day) :=
      List.mem_map_of_mem (fun y => y.date.day) hx
    have h1 : (as.map (fun x => x.date.day)).foldl min a.date.day ≤
        x.date.day := foldl_min_le _ _ _ hxday
    have h2 : x.date.day ≤
        (as.map (fun x => x.date.day)).foldl max a.date.day :=
      le_foldl_max _ _ _ hxday
    have h3 := sundayOnOrAfter_mono h1
    have h4 := sundayOnOrAfter_mono h2
    have h5 := sundayOnOrAfter_mod x.date.day
    refine ⟨bucketFor (a :: as) (sundayOnOrAfter x.date.day),
      List.mem_map_of_mem _ (List.mem_range'.mpr
        ⟨(sundayOnOrAfter x.date.day - sundayOnOrAfter
          ((as.map (fun x => x.date.day)).foldl min a.date.day)) / 7,
          by omega, by omega⟩), rfl⟩

/-- Witness for C2 (amended) at a one-record tracker: the summary call
succeeds and returns exactly the weekly bins of the records. -/
theorem weekly_summary_bins_witness :
    (log_activity FitnessTracker.init "Running" 30 4.5 9).activities ≠ [] ∧
    (calculate_weekly_summary (log_activity FitnessTracker.init "Running"
      30 4.5 9)).2.map Prod.fst =
      .ok (weeklyBuckets (log_activity FitnessTracker.init "Running"
        30 4.5 9).activities) :=
  ⟨by simp [log_activity, FitnessTracker.init],
   (weekly_summary_bins _ (by simp [log_activity, FitnessTracker.init])).1⟩
